import Mathlib

/-!
Verification of the `EdgeStreamableHTTPTransport` server transport
(packages/stremeable-http-transport/src/index.ts).

The transport state and its operations are embedded shallowly:
JavaScript `Map`s become insertion-ordered association lists, HTTP
requests and responses become records, thrown exceptions become
`Except.error` results paired with the state as mutated up to the throw,
and host callbacks (`onmessage`, `onclose`, `onerror`,
`onsessioninitialized`) together with stream writes are recorded as an
effect trace.  `JSON.parse` plus the MCP schema validation of a POST
body, both external to the transport, are abstracted into a
`RequestBody` record carrying the body length and the parse outcome.
-/

set_option maxHeartbeats 1000000

namespace StreamHttpEdge

/-- A JavaScript `Map`, modelled as an insertion-ordered association list.
`Map.prototype.set` overwrites an existing key in place (keeping its
position) and otherwise appends; iteration follows insertion order. -/
abbrev JsMap (α β : Type) := List (α × β)

/-- `Map.prototype.get`. -/
def jsGet {α β : Type} [DecidableEq α] (k : α) : JsMap α β → Option β
  | [] => none
  | (a, b) :: rest => if a = k then some b else jsGet k rest

/-- `Map.prototype.set`. -/
def jsSet {α β : Type} [DecidableEq α] (k : α) (v : β) : JsMap α β → JsMap α β
  | [] => [(k, v)]
  | (a, b) :: rest => if a = k then (a, v) :: rest else (a, b) :: jsSet k v rest

/-- `Map.prototype.delete`. -/
def jsDelete {α β : Type} [DecidableEq α] (k : α) : JsMap α β → JsMap α β
  | [] => []
  | (a, b) :: rest => if a = k then rest else (a, b) :: jsDelete k rest

/-- JavaScript `Map`s never hold two entries with the same key; maps built
by the transport's operations keep this invariant. -/
abbrev keysNodup {α β : Type} (m : JsMap α β) : Prop := (m.map Prod.fst).Nodup

/-- Deleting a list of keys in order (the cleanup loops in `send`). -/
def deleteAll {α β : Type} [DecidableEq α] (ks : List α) (m : JsMap α β) : JsMap α β :=
  ks.foldl (fun acc k => jsDelete k acc) m

/-- `RequestId` is `string | number` in the MCP SDK; the claims under
verification never depend on the numeric case, so ids are strings. -/
abbrev RequestId := String

/-- An opaque handle standing for a `ReadableStreamDefaultController`. -/
abbrev Controller := Nat

/-- The shape of a JSON-RPC message as far as the transport inspects it:
the SDK predicates `isJSONRPCRequest`, `isJSONRPCResponse`,
`isJSONRPCError`, `isInitializeRequest` and the `id` field. -/
inductive JSONRPCMessage : Type
  | request (id : RequestId) (method : String)
  | notification (method : String)
  | response (id : RequestId)
  | error (id : RequestId)
deriving DecidableEq, Repr

def isJSONRPCRequest : JSONRPCMessage → Bool
  | .request _ _ => true
  | _ => false

def isJSONRPCResponse : JSONRPCMessage → Bool
  | .response _ => true
  | _ => false

def isJSONRPCError : JSONRPCMessage → Bool
  | .error _ => true
  | _ => false

def isInitializeRequest : JSONRPCMessage → Bool
  | .request _ m => m = "initialize"
  | _ => false

/-- Response body payloads, distinguished structurally rather than as
serialized text: `rpcError code msg data?` stands for the JSON-RPC error
envelope `\x7b"jsonrpc":"2.0","error":\x7b"code":…,"message":…,"data":…\x7d,"id":null\x7d`. -/
inductive Body : Type
  | text (s : String)
  | rpcError (code : Int) (message : String) (data : Option String)
  | jsonSingle (m : JSONRPCMessage)
  | jsonBatch (ms : List JSONRPCMessage)
  | sse (c : Controller)
deriving DecidableEq, Repr

structure HttpResponse : Type where
  status : Nat
  headers : JsMap String String
  body : Body
deriving DecidableEq, Repr

/-- The parts of the incoming `Request` object the transport reads. -/
structure HttpRequest : Type where
  method : String
  accept : Option String
  contentType : Option String
  mcpSessionId : Option String
  lastEventId : Option String
deriving DecidableEq, Repr

/-- The POST body string, abstracted into its length (the `bodyText.length`
consulted by the size gate) and the outcome of `JSON.parse` followed by
`JSONRPCMessageSchema.parse` on each element, already normalized to a
list (singletons are wrapped).  `Except.error e` models a thrown
parse/validation error whose `String(error)` is `e`. -/
structure RequestBody : Type where
  len : Nat
  parsed : Except String (List JSONRPCMessage)

/-- The external `EventStore`, consumed through its two-method contract.
`replayAfter` either returns the stream id for the resumed connection or
throws (modelled as `Except.error`). -/
structure EventStore : Type where
  storeEvent : String → JSONRPCMessage → String
  replayAfter : String → Except String String

/-- The mutable fields of an `EdgeStreamableHTTPTransport` instance plus
its construction-time options.  `sessionIdGenerator = some v` models a
defined generator whose (single) call returns `v`.  `nextController`
allocates fresh controller handles. -/
structure TransportState : Type where
  sessionIdGenerator : Option String
  started : Bool
  streamMapping : JsMap String Controller
  requestToStreamMapping : JsMap RequestId String
  requestResponseMap : JsMap RequestId JSONRPCMessage
  initialized : Bool
  enableJsonResponse : Bool
  pendingResponses : JsMap String Unit
  sessionId : Option String
  eventStore : Option EventStore
  nextController : Nat

def MAXIMUM_MESSAGE_SIZE : Nat := 4 * 1024 * 1024

def standaloneSseStreamId : String := "_GET_stream"

/-- `String.prototype.includes` via a character-list substring search. -/
def startsWithList : List Char → List Char → Bool
  | [], _ => true
  | _ :: _, [] => false
  | a :: as, b :: bs => a = b && startsWithList as bs

def containsSubList (sub : List Char) : List Char → Bool
  | [] => startsWithList sub []
  | b :: bs => startsWithList sub (b :: bs) || containsSubList sub bs

def strIncludes (hay sub : String) : Bool := containsSubList sub.data hay.data

/-- `header?.includes(sub)` on a possibly-absent header. -/
def optIncludes (h : Option String) (sub : String) : Bool :=
  match h with
  | none => false
  | some v => strIncludes v sub

/-- Observable interactions of the transport with its host and streams. -/
inductive Effect : Type
  | sseWrite (c : Controller) (m : JSONRPCMessage) (eventId : Option String)
  | controllerClosed (c : Controller)
  | resolvedPending (sid : String) (resp : HttpResponse)
  | onErrorCalled (e : String)
  | onMessageCalled (m : JSONRPCMessage)
  | onCloseCalled
  | onSessionInitialized (sid : String)
  | deferredDispatch (ms : List JSONRPCMessage)
deriving DecidableEq, Repr

/-- A handler either returns a `Response` immediately or (JSON mode)
returns a promise resolved later by `send` under the given stream id. -/
inductive HandleResult : Type
  | immediate (r : HttpResponse)
  | promise (sid : String)
deriving DecidableEq, Repr

def jsonContentType : JsMap String String := [("Content-Type", "application/json")]

def rpcErrorResponse (status : Nat) (code : Int) (msg : String) (data : Option String) :
    HttpResponse :=
  { status := status, headers := jsonContentType, body := .rpcError code msg data }

def postNotAcceptable406 : HttpResponse :=
  rpcErrorResponse 406 (-32000)
    "Not Acceptable: Client must accept both application/json and text/event-stream" none

def getNotAcceptable406 : HttpResponse :=
  rpcErrorResponse 406 (-32000) "Not Acceptable: Client must accept text/event-stream" none

def unsupportedMediaType415 : HttpResponse :=
  rpcErrorResponse 415 (-32000) "Unsupported Media Type: Content-Type must be application/json" none

def requestTooLarge413 : HttpResponse :=
  rpcErrorResponse 413 (-32000) "Request too large" none

def parseError400 (e : String) : HttpResponse :=
  rpcErrorResponse 400 (-32700) "Parse error" (some e)

def alreadyInitialized400 : HttpResponse :=
  rpcErrorResponse 400 (-32600) "Invalid Request: Server already initialized" none

def onlyOneInitialization400 : HttpResponse :=
  rpcErrorResponse 400 (-32600) "Invalid Request: Only one initialization request is allowed" none

def serverNotInitialized400 : HttpResponse :=
  rpcErrorResponse 400 (-32000) "Bad Request: Server not initialized" none

def sessionIdRequired400 : HttpResponse :=
  rpcErrorResponse 400 (-32000) "Bad Request: Mcp-Session-Id header is required" none

def sessionNotFound404 : HttpResponse :=
  rpcErrorResponse 404 (-32001) "Session not found" none

def conflict409 : HttpResponse :=
  rpcErrorResponse 409 (-32000) "Conflict: Only one SSE stream is allowed per session" none

def accepted202 : HttpResponse := { status := 202, headers := [], body := .text "" }

def okEmpty200 : HttpResponse := { status := 200, headers := [], body := .text "" }

def internalServerError500 : HttpResponse :=
  { status := 500, headers := [], body := .text "Internal Server Error" }

def methodNotAllowed405 : HttpResponse :=
  { status := 405,
    headers := [("Allow", "GET, POST, DELETE"), ("Content-Type", "application/json")],
    body := .rpcError (-32000) "Method not allowed." none }

/-- SSE success headers; GET/replay use cache control
`"no-cache, no-transform"`, the POST stream uses `"no-cache"`. -/
def sseHeadersWith (cacheControl : String) (sessionId : Option String) : JsMap String String :=
  let base := [("Content-Type", "text/event-stream"), ("Cache-Control", cacheControl),
               ("Connection", "keep-alive")]
  match sessionId with
  | some v => base ++ [("mcp-session-id", v)]
  | none => base

/-- `validateSession`.  Note the JavaScript truthiness test
`if (!sessionId)` on the header value: an empty-string header is treated
like an absent one. -/
def validateSession (s : TransportState) (req : HttpRequest) : Option HttpResponse :=
  if s.sessionIdGenerator = none then none
  else if ¬ s.initialized then some serverNotInitialized400
  else
    match req.mcpSessionId with
    | none => some sessionIdRequired400
    | some v =>
      if v = "" then some sessionIdRequired400
      else if some v ≠ s.sessionId then some sessionNotFound404
      else none

/-- The `cancel()` hook installed by `createSSEStream` on every readable it
builds: it always deletes the standalone stream id, whatever id the
stream was actually registered under. -/
def sseCancelHook (s : TransportState) : TransportState :=
  { s with streamMapping := jsDelete standaloneSseStreamId s.streamMapping }

/-- `replayEvents` (the guard returning an empty 400 when `_eventStore` is
unset is unreachable: the caller only enters under that very check).
Historical frames written by the store through the `send` callback go to
an opaque controller and are not traced. -/
def replayEvents (s : TransportState) (es : EventStore) (lastEventId : String) :
    TransportState × HandleResult × List Effect :=
  let c := s.nextController
  let s1 := { s with nextController := c + 1 }
  match es.replayAfter lastEventId with
  | .error e => (s1, .immediate internalServerError500, [.onErrorCalled e])
  | .ok streamId =>
    ({ s1 with streamMapping := jsSet streamId c s1.streamMapping },
     .immediate { status := 200, headers := sseHeadersWith "no-cache, no-transform" s.sessionId,
                  body := .sse c },
     [])

/-- The non-replay tail of `handleGetRequest`: duplicate-standalone check,
then stream creation and registration under `_GET_stream`. -/
def standaloneGet (s : TransportState) : TransportState × HandleResult × List Effect :=
  if (jsGet standaloneSseStreamId s.streamMapping).isSome then
    (s, .immediate conflict409, [])
  else
    let c := s.nextController
    ({ s with nextController := c + 1,
              streamMapping := jsSet standaloneSseStreamId c s.streamMapping },
     .immediate { status := 200, headers := sseHeadersWith "no-cache, no-transform" s.sessionId,
                  body := .sse c },
     [])

/-- `handleGetRequest`.  Note `if (lastEventId)`: an empty `Last-Event-Id`
header is falsy and skips replay. -/
def handleGetRequest (s : TransportState) (req : HttpRequest) :
    TransportState × HandleResult × List Effect :=
  if ¬ optIncludes req.accept "text/event-stream" then
    (s, .immediate getNotAcceptable406, [])
  else
    match validateSession s req with
    | some r => (s, .immediate r, [])
    | none =>
      match s.eventStore with
      | some es =>
        match req.lastEventId with
        | some le => if le ≠ "" then replayEvents s es le else standaloneGet s
        | none => standaloneGet s
      | none => standaloneGet s

/-- The synchronous `onmessage` dispatch loop for request-free payloads.
`om = none` models an unset `onmessage` (the `?.` call is a no-op);
`some f` models a handler whose behaviour on `m` is `f m`: `none` for a
normal return, `some e` for a synchronous throw with `String(error) = e`.
Returns the invocations performed and the first thrown error, if any. -/
def dispatchLoop (om : Option (JSONRPCMessage → Option String)) :
    List JSONRPCMessage → List Effect × Option String
  | [] => ([], none)
  | m :: rest =>
    match om with
    | none => dispatchLoop none rest
    | some f =>
      match f m with
      | some e => ([.onMessageCalled m], some e)
      | none =>
        let p := dispatchLoop (some f) rest
        (.onMessageCalled m :: p.1, p.2)

/-- The request→stream insertion loop of `handlePostRequest`. -/
def insertRequests (msgs : List JSONRPCMessage) (sid : String)
    (idx : JsMap RequestId String) : JsMap RequestId String :=
  msgs.foldl (fun acc m =>
    match m with
    | .request id _ => jsSet id sid acc
    | _ => acc) idx

/-- The ids of the request messages in a payload, in payload order. -/
def requestIds (msgs : List JSONRPCMessage) : List RequestId :=
  msgs.filterMap fun m =>
    match m with
    | .request id _ => some id
    | _ => none

/-- The dispatch tail of `handlePostRequest`, shared by the initialize and
the validated non-initialize paths: 202 for request-free payloads,
otherwise SSE stream or pending JSON promise under a fresh `uuid`. -/
def postDispatch (s1 : TransportState) (messages : List JSONRPCMessage) (uuid : String)
    (om : Option (JSONRPCMessage → Option String)) (initEffects : List Effect) :
    TransportState × HandleResult × List Effect :=
  if ¬ messages.any isJSONRPCRequest then
    match dispatchLoop om messages with
    | (effs, none) => (s1, .immediate accepted202, initEffects ++ effs)
    | (effs, some e) => (s1, .immediate (parseError400 e), initEffects ++ effs)
  else
    if ¬ s1.enableJsonResponse then
      let c := s1.nextController
      ({ s1 with
          nextController := c + 1,
          streamMapping := jsSet uuid c s1.streamMapping,
          requestToStreamMapping := insertRequests messages uuid s1.requestToStreamMapping },
       .immediate { status := 200, headers := sseHeadersWith "no-cache" s1.sessionId,
                    body := .sse c },
       initEffects ++ [.deferredDispatch messages])
    else
      ({ s1 with
          requestToStreamMapping := insertRequests messages uuid s1.requestToStreamMapping,
          pendingResponses := jsSet uuid () s1.pendingResponses },
       .promise uuid,
       initEffects ++ [.deferredDispatch messages])

/-- `handlePostRequest`.  `uuid` is the value `generateUUID()` returns for
this call.  A synchronous throw out of the request-free dispatch loop is
caught by the enclosing catch-all and turned into the −32700 response;
state mutated before the throw stays mutated. -/
def handlePostRequest (s : TransportState) (req : HttpRequest) (body : RequestBody)
    (uuid : String) (om : Option (JSONRPCMessage → Option String)) :
    TransportState × HandleResult × List Effect :=
  if ¬ (optIncludes req.accept "application/json" ∧ optIncludes req.accept "text/event-stream") then
    (s, .immediate postNotAcceptable406, [])
  else if ¬ optIncludes req.contentType "application/json" then
    (s, .immediate unsupportedMediaType415, [])
  else if MAXIMUM_MESSAGE_SIZE < body.len then
    (s, .immediate requestTooLarge413, [])
  else
    match body.parsed with
    | .error e => (s, .immediate (parseError400 e), [])
    | .ok messages =>
      if messages.any isInitializeRequest then
        if s.initialized ∧ s.sessionId ≠ none then
          (s, .immediate alreadyInitialized400, [])
        else if 1 < messages.length then
          (s, .immediate onlyOneInitialization400, [])
        else
          let s1 := { s with sessionId := s.sessionIdGenerator, initialized := true }
          let initEffects : List Effect :=
            match s.sessionIdGenerator with
            | some v => if v = "" then [] else [.onSessionInitialized v]
            | none => []
          postDispatch s1 messages uuid om initEffects
      else
        match validateSession s req with
        | some r => (s, .immediate r, [])
        | none => postDispatch s messages uuid om []

/-- `close()`: closes every registered controller (tolerating
already-closed), clears the stream registry, the request→response buffer
and the pending resolvers, and invokes `onclose?.()`.  It touches neither
`_requestToStreamMapping` nor `sessionId`. -/
def close (s : TransportState) : TransportState × List Effect :=
  ({ s with streamMapping := [], requestResponseMap := [], pendingResponses := [] },
   (s.streamMapping.map fun p => Effect.controllerClosed p.2) ++ [.onCloseCalled])

def handleDeleteRequest (s : TransportState) (req : HttpRequest) :
    TransportState × HandleResult × List Effect :=
  match validateSession s req with
  | some r => (s, .immediate r, [])
  | none =>
    let p := close s
    (p.1, .immediate okEmpty200, p.2)

/-- `handleRequest`: the method dispatcher. -/
def handleRequest (s : TransportState) (req : HttpRequest) (body : RequestBody)
    (uuid : String) (om : Option (JSONRPCMessage → Option String)) :
    TransportState × HandleResult × List Effect :=
  if req.method = "POST" then handlePostRequest s req body uuid om
  else if req.method = "GET" then handleGetRequest s req
  else if req.method = "DELETE" then handleDeleteRequest s req
  else (s, .immediate methodNotAllowed405, [])

/-- The request id `send` targets: `message.id` for responses and errors,
otherwise `options?.relatedRequestId`. -/
def effectiveRequestId (message : JSONRPCMessage) (relatedRequestId : Option RequestId) :
    Option RequestId :=
  match message with
  | .response id => some id
  | .error id => some id
  | _ => relatedRequestId

/-- `Array.from(map.entries()).filter(([_, sid]) => sid === streamId).map(([id]) => id)`. -/
def relatedIdsOf (idx : JsMap RequestId String) (sid : String) : List RequestId :=
  (idx.filter fun p => p.2 = sid).map Prod.fst

/-- The completion cleanup loop of `send`, followed by removal of the
stream itself from the registry. -/
def cleanupStream (relatedIds : List RequestId) (streamId : String) (s : TransportState) :
    TransportState :=
  let s1 := relatedIds.foldl (fun acc id =>
    { acc with requestResponseMap := jsDelete id acc.requestResponseMap,
               requestToStreamMapping := jsDelete id acc.requestToStreamMapping }) s
  { s1 with streamMapping := jsDelete streamId s1.streamMapping }

/-- `responses.length === 1 ? responses[0] : responses`. -/
def jsonBodyOf : List JSONRPCMessage → Body
  | [r] => .jsonSingle r
  | rs => .jsonBatch rs

/-- `send(message, options)`.  A thrown error is returned as
`Except.error` together with the state as mutated so far (nothing is
mutated before either throw site).  Note the JavaScript truthiness test
`if (!streamId)` right after the index lookup: an empty-string stream id
would take the same throw as a missing one, and the second
`No connection established` check in the source is dead code. -/
def send (s : TransportState) (message : JSONRPCMessage) (relatedRequestId : Option RequestId) :
    TransportState × Except String (List Effect) :=
  match effectiveRequestId message relatedRequestId with
  | none =>
    if isJSONRPCResponse message ∨ isJSONRPCError message then
      (s, .error "Cannot send a response on a standalone SSE stream unless resuming a previous client request")
    else
      match jsGet standaloneSseStreamId s.streamMapping with
      | none => (s, .ok [])
      | some c =>
        let eventId := s.eventStore.map fun es => es.storeEvent standaloneSseStreamId message
        (s, .ok [.sseWrite c message eventId])
  | some rid =>
    match jsGet rid s.requestToStreamMapping with
    | none => (s, .error ("No stream found for request ID: " ++ rid))
    | some streamId =>
      if streamId = "" then
        (s, .error ("No stream found for request ID: " ++ rid))
      else
        let controller := jsGet streamId s.streamMapping
        let writeEffs : List Effect :=
          match controller with
          | some c =>
            if s.enableJsonResponse then []
            else [.sseWrite c message (s.eventStore.map fun es => es.storeEvent streamId message)]
          | none => []
        if isJSONRPCResponse message ∨ isJSONRPCError message then
          let s1 := { s with requestResponseMap := jsSet rid message s.requestResponseMap }
          let relatedIds := relatedIdsOf s1.requestToStreamMapping streamId
          if relatedIds.all (fun id => (jsGet id s1.requestResponseMap).isSome) then
            if s1.enableJsonResponse then
              match jsGet streamId s1.pendingResponses with
              | some _ =>
                let responses := relatedIds.filterMap fun id => jsGet id s1.requestResponseMap
                let headers : JsMap String String :=
                  match s1.sessionId with
                  | some v => [("Content-Type", "application/json"), ("mcp-session-id", v)]
                  | none => [("Content-Type", "application/json")]
                let resp : HttpResponse :=
                  { status := 200, headers := headers, body := jsonBodyOf responses }
                let s2 := { s1 with pendingResponses := jsDelete streamId s1.pendingResponses }
                (cleanupStream relatedIds streamId s2,
                 .ok (writeEffs ++ [.resolvedPending streamId resp]))
              | none => (cleanupStream relatedIds streamId s1, .ok writeEffs)
            else
              let closeEffs : List Effect :=
                match controller with
                | some c => [.controllerClosed c]
                | none => []
              (cleanupStream relatedIds streamId s1, .ok (writeEffs ++ closeEffs))
          else (s1, .ok writeEffs)
        else (s, .ok writeEffs)

/-- Sequential `send` calls delivering one terminal response per id, in
the given order; stops at the first thrown error. -/
def deliverSeq (resp : RequestId → JSONRPCMessage) (ds : List RequestId)
    (s : TransportState) : TransportState × Except String (List Effect) :=
  match ds with
  | [] => (s, .ok [])
  | d :: rest =>
    match send s (resp d) none with
    | (s1, .error e) => (s1, .error e)
    | (s1, .ok effs) =>
      match deliverSeq resp rest s1 with
      | (s2, .error e) => (s2, .error e)
      | (s2, .ok effs2) => (s2, .ok (effs ++ effs2))

/-! Concrete fixtures used by counterexamples and witnesses. -/

def baseState : TransportState :=
  { sessionIdGenerator := none, started := false, streamMapping := [],
    requestToStreamMapping := [], requestResponseMap := [], initialized := false,
    enableJsonResponse := false, pendingResponses := [], sessionId := none,
    eventStore := none, nextController := 0 }

def c1State : TransportState :=
  { baseState with streamMapping := [("s1", 0)],
                   requestToStreamMapping := [("r1", "s1")],
                   requestResponseMap := [("r1", .response "r1")],
                   pendingResponses := [("s1", ())],
                   sessionId := some "sess" }

def c2State : TransportState :=
  { baseState with streamMapping := [("abc", 0), (standaloneSseStreamId, 1)] }

def c6State : TransportState :=
  { baseState with sessionIdGenerator := some "gen", initialized := true,
                   sessionId := some "sess" }

def c6Request : HttpRequest :=
  { method := "GET", accept := some "text/event-stream", contentType := none,
    mcpSessionId := some "", lastEventId := none }

/-- What claim C6 states `validateSession` does: rule 3 fires only on an
absent header, so a present-but-empty header falls through to rule 4. -/
def validateSessionClaimed (s : TransportState) (req : HttpRequest) : Option HttpResponse :=
  if s.sessionIdGenerator = none then none
  else if ¬ s.initialized then some serverNotInitialized400
  else
    match req.mcpSessionId with
    | none => some sessionIdRequired400
    | some v =>
      if some v ≠ s.sessionId then some sessionNotFound404
      else none

/-- The session-validation rules as amended: a present-but-empty
`Mcp-Session-Id` header is treated like an absent one. -/
def validateSessionAmendedSpec (s : TransportState) (req : HttpRequest) : Option HttpResponse :=
  if s.sessionIdGenerator = none then none
  else if ¬ s.initialized then some serverNotInitialized400
  else
    match req.mcpSessionId with
    | none => some sessionIdRequired400
    | some v =>
      if v = "" then some sessionIdRequired400
      else if some v = s.sessionId then none
      else some sessionNotFound404

def c8Store : EventStore :=
  { storeEvent := fun _ _ => "e0", replayAfter := fun _ => .error "boom" }

def c8State : TransportState := { baseState with eventStore := some c8Store }

def c8Request : HttpRequest :=
  { method := "GET", accept := some "text/event-stream", contentType := none,
    mcpSessionId := none, lastEventId := some "ev-1" }

def emptyBody : RequestBody := { len := 0, parsed := .ok [] }

def postAcceptHeader : Option String := some "application/json, text/event-stream"

/-- Error envelopes produced by `handleRequest`: status plus the
JSON-RPC error body restricted to the four documented codes. -/
def errorEnvelopeOk (r : HttpResponse) : Prop :=
  ∃ code msg data, r.body = Body.rpcError code msg data ∧
    (code = -32000 ∨ code = -32001 ∨ code = -32600 ∨ code = -32700)

def witnessPostNoAccept : HttpRequest :=
  { method := "POST", accept := none, contentType := none,
    mcpSessionId := none, lastEventId := none }

def goodPostRequest : HttpRequest :=
  { method := "POST", accept := postAcceptHeader, contentType := some "application/json",
    mcpSessionId := none, lastEventId := none }

def statefulState : TransportState := { baseState with sessionIdGenerator := some "gen" }

def initializedState : TransportState :=
  { statefulState with initialized := true, sessionId := some "gen" }

def initBody : RequestBody := { len := 10, parsed := .ok [.request "r0" "initialize"] }

def notifyThrowBody : RequestBody :=
  { len := 10,
    parsed := .ok [.notification "a", .notification "bad", .notification "c"] }

/-- A host `onmessage` that throws on the `"bad"` notification. -/
def throwingOnMessage : JSONRPCMessage → Option String :=
  fun m =>
    match m with
    | .notification "bad" => some "Error: host failed"
    | _ => none

def c3State : TransportState :=
  { baseState with streamMapping := [("s1", 7)],
                   requestToStreamMapping := [("r1", "s1")] }

def c4State : TransportState := { baseState with enableJsonResponse := true }

def c4Msgs : List JSONRPCMessage := [.request "a" "m1", .request "b" "m2"]

def c4Body : RequestBody := { len := 20, parsed := .ok c4Msgs }

def c4Resp : RequestId → JSONRPCMessage := fun r => .response r

/-- The state after the JSON-mode POST of `c4Msgs` under stream id `u-1`. -/
def c4Post1 : TransportState :=
  { baseState with enableJsonResponse := true,
                   requestToStreamMapping := [("a", "u-1"), ("b", "u-1")],
                   pendingResponses := [("u-1", ())] }

def putRequest : HttpRequest :=
  { method := "PUT", accept := none, contentType := none,
    mcpSessionId := none, lastEventId := none }

/-! ### Association-list facts about the `Map` model -/

theorem jsGet_jsSet_self {α β : Type} [DecidableEq α] (k : α) (v : β) (m : JsMap α β) :
    jsGet k (jsSet k v m) = some v := by
  induction m with
  | nil => simp [jsSet, jsGet]
  | cons p rest ih =>
    obtain ⟨a, b⟩ := p
    by_cases hak : a = k
    · simp [jsSet, jsGet, hak]
    · simp [jsSet, jsGet, hak, ih]

theorem jsGet_jsSet_ne {α β : Type} [DecidableEq α] {k k' : α} (v : β) (m : JsMap α β)
    (h : k' ≠ k) : jsGet k' (jsSet k v m) = jsGet k' m := by
  have hkk : k ≠ k' := fun he => h he.symm
  induction m with
  | nil => simp [jsSet, jsGet, hkk]
  | cons p rest ih =>
    obtain ⟨a, b⟩ := p
    by_cases hak : a = k
    · subst hak
      simp [jsSet, jsGet, hkk]
    · simp only [jsSet, if_neg hak]
      by_cases hak' : a = k'
      · simp [jsGet, hak']
      · simp [jsGet, hak', ih]

theorem jsGet_jsDelete_ne {α β : Type} [DecidableEq α] {k k' : α} (m : JsMap α β)
    (h : k' ≠ k) : jsGet k' (jsDelete k m) = jsGet k' m := by
  have hkk : k ≠ k' := fun he => h he.symm
  induction m with
  | nil => simp [jsDelete]
  | cons p rest ih =>
    obtain ⟨a, b⟩ := p
    by_cases hak : a = k
    · subst hak
      simp [jsDelete, jsGet, hkk]
    · simp only [jsDelete, if_neg hak]
      by_cases hak' : a = k'
      · simp [jsGet, hak']
      · simp [jsGet, hak', ih]

theorem jsGet_eq_none_iff {α β : Type} [DecidableEq α] {k : α} {m : JsMap α β} :
    jsGet k m = none ↔ ∀ p ∈ m, p.1 ≠ k := by
  induction m with
  | nil => simp [jsGet]
  | cons p rest ih =>
    obtain ⟨a, b⟩ := p
    by_cases hak : a = k
    · simp [jsGet, hak]
    · simp [jsGet, hak, ih]

theorem mem_of_jsGet_eq_some {α β : Type} [DecidableEq α] {k : α} {v : β} {m : JsMap α β}
    (h : jsGet k m = some v) : (k, v) ∈ m := by
  induction m with
  | nil => simp [jsGet] at h
  | cons p rest ih =>
    obtain ⟨a, b⟩ := p
    by_cases hak : a = k
    · subst hak
      simp [jsGet] at h
      simp [h]
    · simp [jsGet, hak] at h
      exact List.mem_cons_of_mem _ (ih h)

theorem jsGet_eq_some_of_mem {α β : Type} [DecidableEq α] {k : α} {v : β} {m : JsMap α β}
    (hnd : keysNodup m) (h : (k, v) ∈ m) : jsGet k m = some v := by
  induction m with
  | nil => simp at h
  | cons p rest ih =>
    obtain ⟨a, b⟩ := p
    simp only [keysNodup, List.map_cons, List.nodup_cons] at hnd
    rcases List.mem_cons.mp h with h1 | h1
    · injection h1 with hk hv
      subst hk
      subst hv
      simp [jsGet]
    · by_cases hak : a = k
      · subst hak
        exact absurd (List.mem_map.mpr ⟨(a, v), h1, rfl⟩) hnd.1
      · simp only [jsGet, if_neg hak]
        exact ih hnd.2 h1

theorem jsDelete_sublist {α β : Type} [DecidableEq α] (k : α) (m : JsMap α β) :
    (jsDelete k m).Sublist m := by
  induction m with
  | nil => simp [jsDelete]
  | cons p rest ih =>
    obtain ⟨a, b⟩ := p
    by_cases hak : a = k
    · simpa [jsDelete, hak] using List.sublist_cons_self _ _
    · simpa [jsDelete, hak] using ih

theorem keysNodup_jsDelete {α β : Type} [DecidableEq α] (k : α) {m : JsMap α β}
    (h : keysNodup m) : keysNodup (jsDelete k m) :=
  List.Nodup.sublist ((jsDelete_sublist k m).map Prod.fst) h

theorem jsGet_jsDelete_self {α β : Type} [DecidableEq α] (k : α) {m : JsMap α β}
    (hnd : keysNodup m) : jsGet k (jsDelete k m) = none := by
  induction m with
  | nil => simp [jsDelete, jsGet]
  | cons p rest ih =>
    obtain ⟨a, b⟩ := p
    simp only [keysNodup, List.map_cons, List.nodup_cons] at hnd
    by_cases hak : a = k
    · subst hak
      simp [jsDelete]
      rw [jsGet_eq_none_iff]
      intro p hp he
      exact hnd.1 (List.mem_map.mpr ⟨p, hp, he⟩)
    · simp [jsDelete, jsGet, hak]
      exact ih hnd.2

theorem mem_keys_jsSet {α β : Type} [DecidableEq α] {k k' : α} {v : β} {m : JsMap α β} :
    k' ∈ (jsSet k v m).map Prod.fst ↔ k' = k ∨ k' ∈ m.map Prod.fst := by
  induction m with
  | nil => simp [jsSet]
  | cons p rest ih =>
    obtain ⟨a, b⟩ := p
    by_cases hak : a = k
    · subst hak
      have hs : jsSet a v ((a, b) :: rest) = (a, v) :: rest := by simp [jsSet]
      rw [hs]
      simp only [List.map_cons, List.mem_cons]
      tauto
    · have hs : jsSet k v ((a, b) :: rest) = (a, b) :: jsSet k v rest := by simp [jsSet, hak]
      rw [hs]
      simp only [List.map_cons, List.mem_cons, ih]
      tauto

theorem keysNodup_jsSet {α β : Type} [DecidableEq α] (k : α) (v : β) {m : JsMap α β}
    (h : keysNodup m) : keysNodup (jsSet k v m) := by
  induction m with
  | nil => simp [jsSet, keysNodup]
  | cons p rest ih =>
    obtain ⟨a, b⟩ := p
    simp only [keysNodup, List.map_cons, List.nodup_cons] at h
    by_cases hak : a = k
    · subst hak
      have hs : jsSet a v ((a, b) :: rest) = (a, v) :: rest := by simp [jsSet]
      rw [hs]
      simp only [keysNodup, List.map_cons, List.nodup_cons]
      exact h
    · have hs : jsSet k v ((a, b) :: rest) = (a, b) :: jsSet k v rest := by simp [jsSet, hak]
      rw [hs]
      simp only [keysNodup, List.map_cons, List.nodup_cons]
      refine ⟨fun hmem => ?_, ih h.2⟩
      rcases mem_keys_jsSet.mp hmem with h1 | h1
      · exact hak h1
      · exact h.1 h1

theorem keysNodup_deleteAll {α β : Type} [DecidableEq α] (ks : List α) {m : JsMap α β}
    (h : keysNodup m) : keysNodup (deleteAll ks m) := by
  induction ks generalizing m with
  | nil => exact h
  | cons a l ih =>
    exact ih (keysNodup_jsDelete a h)

theorem jsGet_deleteAll {α β : Type} [DecidableEq α] (k : α) (ks : List α) {m : JsMap α β}
    (hnd : keysNodup m) :
    jsGet k (deleteAll ks m) = if k ∈ ks then none else jsGet k m := by
  induction ks generalizing m with
  | nil => simp [deleteAll]
  | cons a l ih =>
    have step : deleteAll (a :: l) m = deleteAll l (jsDelete a m) := by simp [deleteAll]
    rw [step, ih (keysNodup_jsDelete a hnd)]
    by_cases hkl : k ∈ l
    · simp [hkl]
    · by_cases hka : k = a
      · subst hka
        simp [hkl, jsGet_jsDelete_self k hnd]
      · simp [hkl, hka, jsGet_jsDelete_ne m hka]

theorem jsSet_eq_append {α β : Type} [DecidableEq α] {k : α} (v : β) {m : JsMap α β}
    (h : jsGet k m = none) : jsSet k v m = m ++ [(k, v)] := by
  induction m with
  | nil => simp [jsSet]
  | cons p rest ih =>
    obtain ⟨a, b⟩ := p
    by_cases hak : a = k
    · simp [jsGet, hak] at h
    · simp [jsGet, hak] at h
      simp [jsSet, hak, ih h]

theorem jsGet_append {α β : Type} [DecidableEq α] (k : α) (m₁ m₂ : JsMap α β) :
    jsGet k (m₁ ++ m₂) =
      match jsGet k m₁ with
      | some v => some v
      | none => jsGet k m₂ := by
  induction m₁ with
  | nil => simp [jsGet]
  | cons p rest ih =>
    obtain ⟨a, b⟩ := p
    by_cases hak : a = k
    · simp [jsGet, hak]
    · simp [jsGet, hak, ih]

/-! ### Facts about the transport's derived operations -/

theorem requestIds_cons_request (id : RequestId) (meth : String) (rest : List JSONRPCMessage) :
    requestIds (.request id meth :: rest) = id :: requestIds rest := by
  simp [requestIds]

theorem insertRequests_eq_append (msgs : List JSONRPCMessage) (sid : String)
    (idx : JsMap RequestId String)
    (hfresh : ∀ id ∈ requestIds msgs, jsGet id idx = none)
    (hnodup : (requestIds msgs).Nodup) :
    insertRequests msgs sid idx = idx ++ (requestIds msgs).map (fun id => (id, sid)) := by
  induction msgs generalizing idx with
  | nil => simp [insertRequests, requestIds]
  | cons m rest ih =>
    cases m with
    | request id meth =>
      have hstep : insertRequests (.request id meth :: rest) sid idx =
          insertRequests rest sid (jsSet id sid idx) := by
        simp [insertRequests]
      have hids := requestIds_cons_request id meth rest
      rw [hids] at hfresh hnodup
      have hid0 : jsGet id idx = none := hfresh id (List.mem_cons_self _ _)
      have hset : jsSet id sid idx = idx ++ [(id, sid)] := jsSet_eq_append sid hid0
      have hfresh' : ∀ i ∈ requestIds rest, jsGet i (jsSet id sid idx) = none := by
        intro i hi
        rw [hset, jsGet_append]
        have h1 : jsGet i idx = none := hfresh i (List.mem_cons_of_mem _ hi)
        have h2 : id ≠ i := fun he => (List.nodup_cons.mp hnodup).1 (he ▸ hi)
        simp [h1, jsGet, h2]
      rw [hstep, ih (jsSet id sid idx) hfresh' (List.nodup_cons.mp hnodup).2, hset, hids]
      simp
    | notification meth =>
      have : insertRequests (.notification meth :: rest) sid idx =
          insertRequests rest sid idx := by simp [insertRequests]
      rw [this, ih idx (by simpa [requestIds] using hfresh) (by simpa [requestIds] using hnodup)]
      simp [requestIds]
    | response id =>
      have : insertRequests (.response id :: rest) sid idx =
          insertRequests rest sid idx := by simp [insertRequests]
      rw [this, ih idx (by simpa [requestIds] using hfresh) (by simpa [requestIds] using hnodup)]
      simp [requestIds]
    | error id =>
      have : insertRequests (.error id :: rest) sid idx =
          insertRequests rest sid idx := by simp [insertRequests]
      rw [this, ih idx (by simpa [requestIds] using hfresh) (by simpa [requestIds] using hnodup)]
      simp [requestIds]

theorem mem_relatedIdsOf {idx : JsMap RequestId String} {sid : String} {id : RequestId} :
    id ∈ relatedIdsOf idx sid ↔ (id, sid) ∈ idx := by
  simp only [relatedIdsOf, List.mem_map, List.mem_filter, decide_eq_true_eq]
  constructor
  · rintro ⟨⟨a, b⟩, ⟨hm, hb⟩, ha⟩
    simp only at hb ha
    subst hb; subst ha
    exact hm
  · intro h
    exact ⟨(id, sid), ⟨h, rfl⟩, rfl⟩

theorem nodup_relatedIdsOf {idx : JsMap RequestId String} (sid : String)
    (h : keysNodup idx) : (relatedIdsOf idx sid).Nodup := by
  have hsub : (relatedIdsOf idx sid).Sublist (idx.map Prod.fst) :=
    List.Sublist.map Prod.fst (List.filter_sublist idx)
  exact List.Nodup.sublist hsub h

theorem relatedIdsOf_append_fresh (idx0 : JsMap RequestId String) (rids : List RequestId)
    (sid : String) (h0 : ∀ p ∈ idx0, p.2 ≠ sid) :
    relatedIdsOf (idx0 ++ rids.map fun id => (id, sid)) sid = rids := by
  unfold relatedIdsOf
  rw [List.filter_append]
  have h1 : idx0.filter (fun p => decide (p.2 = sid)) = [] := by
    rw [List.filter_eq_nil]
    intro p hp
    simpa using h0 p hp
  have h2 : (rids.map fun id => (id, sid)).filter (fun p => decide (p.2 = sid)) =
      rids.map fun id => (id, sid) := by
    rw [List.filter_eq_self]
    intro p hp
    rcases List.mem_map.mp hp with ⟨i, _, hi⟩
    simp [← hi]
  rw [h1, h2]
  simp only [List.nil_append, List.map_map]
  have hcomp : (Prod.fst ∘ fun i : RequestId => (i, sid)) = fun i : RequestId => i := rfl
  rw [hcomp]
  simp

theorem cleanupStream_nil (sid : String) (s : TransportState) :
    cleanupStream [] sid s = { s with streamMapping := jsDelete sid s.streamMapping } := rfl

theorem cleanupStream_cons (a : RequestId) (l : List RequestId) (sid : String)
    (s : TransportState) :
    cleanupStream (a :: l) sid s =
      cleanupStream l sid
        { s with requestResponseMap := jsDelete a s.requestResponseMap,
                 requestToStreamMapping := jsDelete a s.requestToStreamMapping } := rfl

theorem cleanupStream_fields (ids : List RequestId) (sid : String) (s : TransportState) :
    (cleanupStream ids sid s).requestResponseMap = deleteAll ids s.requestResponseMap ∧
    (cleanupStream ids sid s).requestToStreamMapping = deleteAll ids s.requestToStreamMapping ∧
    (cleanupStream ids sid s).streamMapping = jsDelete sid s.streamMapping ∧
    (cleanupStream ids sid s).pendingResponses = s.pendingResponses ∧
    (cleanupStream ids sid s).sessionId = s.sessionId ∧
    (cleanupStream ids sid s).enableJsonResponse = s.enableJsonResponse := by
  induction ids generalizing s with
  | nil => simp [cleanupStream_nil, deleteAll]
  | cons a l ih =>
    rw [cleanupStream_cons]
    have h := ih { s with requestResponseMap := jsDelete a s.requestResponseMap,
                          requestToStreamMapping := jsDelete a s.requestToStreamMapping }
    simpa [deleteAll] using h

theorem filterMap_eq_map_of {α β : Type} (l : List α) (f : α → Option β) (g : α → β)
    (h : ∀ a ∈ l, f a = some (g a)) : l.filterMap f = l.map g := by
  induction l with
  | nil => simp
  | cons a rest ih =>
    rw [List.filterMap_cons, h a (List.mem_cons_self _ _), List.map_cons,
      ih fun x hx => h x (List.mem_cons_of_mem _ hx)]

/-! ### Claim theorems -/

/-- C1 (counterexample): from a state holding one request→stream entry and
a session id, `close()` leaves the request→stream index non-empty and the
session id set — the claim that every mapping is empty and the session id
is cleared after `close()` is false at this state. -/
theorem close_counterexample :
    ¬ ((close c1State).1.requestToStreamMapping = [] ∧ (close c1State).1.sessionId = none) := by
  decide

/-- C1 (amended): after `close()` the stream registry, the
request→response buffer and the pending JSON resolvers are empty and
`onclose` has been invoked, for every state; the request→stream index and
the session id are left unchanged. -/
theorem close_clears_streams_buffers_resolvers (s : TransportState) :
    (close s).1.streamMapping = [] ∧
    (close s).1.requestResponseMap = [] ∧
    (close s).1.pendingResponses = [] ∧
    (close s).1.requestToStreamMapping = s.requestToStreamMapping ∧
    (close s).1.sessionId = s.sessionId ∧
    Effect.onCloseCalled ∈ (close s).2 := by
  refine ⟨rfl, rfl, rfl, rfl, rfl, ?_⟩
  simp [close]

/-- C2 (counterexample): with a POST stream registered under `"abc"` and
the standalone GET stream registered, the cancel hook of the `"abc"`
stream's readable does not remove the `"abc"` entry and does remove the
standalone entry — refuting both halves of the claim at this state. -/
theorem sseCancelHook_counterexample :
    ¬ (jsGet "abc" (sseCancelHook c2State).streamMapping = none ∧
       jsGet standaloneSseStreamId (sseCancelHook c2State).streamMapping =
         jsGet standaloneSseStreamId c2State.streamMapping) := by
  decide

/-- C2 (amended): the cancel hook installed on every SSE readable always
deletes the standalone `_GET_stream` registry entry and leaves every
other entry unchanged; only for the standalone GET stream does the hook
remove that stream's own entry. -/
theorem sseCancelHook_deletes_standalone_entry (s : TransportState)
    (h : keysNodup s.streamMapping) :
    jsGet standaloneSseStreamId (sseCancelHook s).streamMapping = none ∧
    ∀ sid, sid ≠ standaloneSseStreamId →
      jsGet sid (sseCancelHook s).streamMapping = jsGet sid s.streamMapping := by
  refine ⟨jsGet_jsDelete_self _ h, fun sid hsid => jsGet_jsDelete_ne _ hsid⟩

theorem sseCancelHook_deletes_standalone_entry_witness :
    keysNodup c2State.streamMapping ∧
    jsGet standaloneSseStreamId (sseCancelHook c2State).streamMapping = none :=
  ⟨by decide, (sseCancelHook_deletes_standalone_entry c2State (by decide)).1⟩

/-- C6 (counterexample): with a stateful, initialized transport whose
session id is `"sess"`, a request carrying a present-but-empty
`Mcp-Session-Id` header gets the 400 "header is required" response, not
the 404 "Session not found" the claim's rule order dictates. -/
theorem validateSession_counterexample :
    validateSession c6State c6Request = some sessionIdRequired400 ∧
    validateSession c6State c6Request ≠ validateSessionClaimed c6State c6Request := by
  decide

/-- C6 (amended): session validation evaluates its rules in order —
stateless transports are always valid; uninitialized stateful transports
get 400 code −32000 "Server not initialized"; an absent *or empty*
`Mcp-Session-Id` header gets 400 code −32000 "header is required"; a
non-empty header differing from the current session id gets 404 code
−32001 "Session not found"; otherwise the request is valid.  The
validator reads the state and mutates nothing (it is a pure function of
the request and the session state in this embedding). -/
theorem validateSession_rules (s : TransportState) (req : HttpRequest) :
    validateSession s req = validateSessionAmendedSpec s req := by
  unfold validateSession validateSessionAmendedSpec
  by_cases h1 : s.sessionIdGenerator = none
  · simp [h1]
  · by_cases h2 : s.initialized
    · cases hm : req.mcpSessionId with
      | none => simp [h1, h2, hm]
      | some v =>
        by_cases hv : v = ""
        · simp [h1, h2, hm, hv]
        · by_cases he : some v = s.sessionId
          · simp [h1, h2, hm, hv, he]
          · simp [h1, h2, hm, hv, he]
    · simp [h1, h2]

/-- C9: when the effective request id of a `send` call is defined but
absent from the request→stream index, `send` throws
`"No stream found for request ID: <id>"` and the transport state —
all four mappings included — is exactly the state before the call. -/
theorem send_unknown_request_id (s : TransportState) (message : JSONRPCMessage)
    (opts : Option RequestId) (rid : RequestId)
    (hid : effectiveRequestId message opts = some rid)
    (habs : jsGet rid s.requestToStreamMapping = none) :
    send s message opts = (s, .error ("No stream found for request ID: " ++ rid)) := by
  simp [send, hid, habs]

theorem send_unknown_request_id_witness :
    effectiveRequestId (.response "rX") none = some "rX" ∧
    jsGet "rX" baseState.requestToStreamMapping = none ∧
    send baseState (.response "rX") none =
      (baseState, .error ("No stream found for request ID: " ++ "rX")) :=
  ⟨rfl, rfl, send_unknown_request_id baseState (.response "rX") none "rX" rfl rfl⟩

theorem postDispatch_session_fields (s1 : TransportState) (msgs : List JSONRPCMessage)
    (uuid : String) (om : Option (JSONRPCMessage → Option String)) (eff : List Effect) :
    (postDispatch s1 msgs uuid om eff).1.sessionId = s1.sessionId ∧
    (postDispatch s1 msgs uuid om eff).1.initialized = s1.initialized := by
  unfold postDispatch
  by_cases h : msgs.any isJSONRPCRequest = true
  · by_cases hj : s1.enableJsonResponse = true <;> simp [h, hj]
  · rcases hd : dispatchLoop om msgs with ⟨effs, r⟩
    cases r <;> simp [h, hd]

theorem any_isInitialize_eq_false_of (msgs : List JSONRPCMessage)
    (h : msgs.any isJSONRPCRequest = false) : msgs.any isInitializeRequest = false := by
  rw [List.any_eq_false] at h ⊢
  intro m hm
  have hr := h m hm
  cases m <;> simp [isInitializeRequest, isJSONRPCRequest] at hr ⊢

theorem dispatchLoop_throw (f : JSONRPCMessage → Option String) (pre : List JSONRPCMessage)
    (mbad : JSONRPCMessage) (rest : List JSONRPCMessage) (e : String)
    (hpre : ∀ m ∈ pre, f m = none) (hbad : f mbad = some e) :
    dispatchLoop (some f) (pre ++ mbad :: rest) =
      ((pre ++ [mbad]).map Effect.onMessageCalled, some e) := by
  induction pre with
  | nil => simp [dispatchLoop, hbad]
  | cons m pre ih =>
    have hm : f m = none := hpre m (List.mem_cons_self _ _)
    simp [dispatchLoop, hm, ih fun x hx => hpre x (List.mem_cons_of_mem _ hx)]

/-- C5: with a session-id generator defined, the first gate-passing POST
whose payload is a single initialize request sets `sessionId` to the
generated value and flips `initialized`; thereafter every gate-passing
POST whose payload contains an initialize request is answered with the
400 code −32600 "Invalid Request: Server already initialized" response
and returns the transport state — `sessionId` included — unchanged. -/
theorem double_initialize_rejected
    (s0 : TransportState) (req1 req2 : HttpRequest) (body1 body2 : RequestBody)
    (uuid1 uuid2 : String) (om1 om2 : Option (JSONRPCMessage → Option String))
    (gv : String) (m1 : JSONRPCMessage)
    (hgen : s0.sessionIdGenerator = some gv)
    (hinit0 : s0.initialized = false)
    (ha1 : optIncludes req1.accept "application/json" = true)
    (ha2 : optIncludes req1.accept "text/event-stream" = true)
    (hct1 : optIncludes req1.contentType "application/json" = true)
    (hlen1 : body1.len ≤ MAXIMUM_MESSAGE_SIZE)
    (hparse1 : body1.parsed = .ok [m1])
    (hm1 : isInitializeRequest m1 = true) :
    ((handlePostRequest s0 req1 body1 uuid1 om1).1.sessionId = some gv ∧
     (handlePostRequest s0 req1 body1 uuid1 om1).1.initialized = true) ∧
    (∀ (t : TransportState) (msgs2 : List JSONRPCMessage),
      t.initialized = true → t.sessionId ≠ none →
      optIncludes req2.accept "application/json" = true →
      optIncludes req2.accept "text/event-stream" = true →
      optIncludes req2.contentType "application/json" = true →
      body2.len ≤ MAXIMUM_MESSAGE_SIZE →
      body2.parsed = .ok msgs2 →
      msgs2.any isInitializeRequest = true →
      handlePostRequest t req2 body2 uuid2 om2 = (t, .immediate alreadyInitialized400, [])) := by
  constructor
  · have hnl : ¬ (MAXIMUM_MESSAGE_SIZE < body1.len) := by omega
    simp only [handlePostRequest, ha1, ha2, hct1, hnl, hparse1, hinit0, List.any_cons,
      List.any_nil, hm1, Bool.or_false, if_true, Bool.false_eq_true, false_and, if_false,
      List.length_cons, List.length_nil, Nat.lt_irrefl, and_true, not_true, not_false_iff,
      ite_true, ite_false]
    constructor
    · rw [(postDispatch_session_fields _ _ _ _ _).1]
      simp [hgen]
    · rw [(postDispatch_session_fields _ _ _ _ _).2]
  · intro t msgs2 hti hts hb1 hb2 hbc hbl hbp hbi
    have hnl : ¬ (MAXIMUM_MESSAGE_SIZE < body2.len) := by omega
    simp [handlePostRequest, hb1, hb2, hbc, hnl, hbp, hbi, hti, hts]

theorem double_initialize_rejected_witness :
    ((handlePostRequest statefulState goodPostRequest initBody "u1" none).1.sessionId =
       some "gen" ∧
     (handlePostRequest statefulState goodPostRequest initBody "u1" none).1.initialized =
       true) ∧
    handlePostRequest initializedState goodPostRequest initBody "u2" none =
      (initializedState, .immediate alreadyInitialized400, []) := by
  have h := double_initialize_rejected statefulState goodPostRequest goodPostRequest
    initBody initBody "u1" "u2" none none "gen" (.request "r0" "initialize")
    rfl rfl (by decide) (by decide) (by decide) (by decide) rfl rfl
  exact ⟨h.1, h.2 initializedState [.request "r0" "initialize"] rfl (by decide)
    (by decide) (by decide) (by decide) (by decide) rfl rfl⟩

/-- C7: the POST gates are checked in order, each failing short with its
status — 406 (code −32000) when the Accept header does not include both
`application/json` and `text/event-stream`, then 415 (code −32000) when
the Content-Type does not include `application/json`, then 413 (code
−32000) when the body exceeds 4 MiB (so a body of 4 MiB + 1 byte yields
413), then 400 code −32700 "Parse error" with the stringified cause as
error data when the body fails JSON parsing or JSON-RPC validation.
Every failure leaves the transport state unchanged. -/
theorem post_gates_in_order (s : TransportState) (req : HttpRequest) (body : RequestBody)
    (uuid : String) (om : Option (JSONRPCMessage → Option String)) :
    (¬ (optIncludes req.accept "application/json" = true ∧
        optIncludes req.accept "text/event-stream" = true) →
      handlePostRequest s req body uuid om = (s, .immediate postNotAcceptable406, [])) ∧
    (optIncludes req.accept "application/json" = true →
     optIncludes req.accept "text/event-stream" = true →
     optIncludes req.contentType "application/json" = false →
      handlePostRequest s req body uuid om = (s, .immediate unsupportedMediaType415, [])) ∧
    (optIncludes req.accept "application/json" = true →
     optIncludes req.accept "text/event-stream" = true →
     optIncludes req.contentType "application/json" = true →
     MAXIMUM_MESSAGE_SIZE < body.len →
      handlePostRequest s req body uuid om = (s, .immediate requestTooLarge413, [])) ∧
    (optIncludes req.accept "application/json" = true →
     optIncludes req.accept "text/event-stream" = true →
     optIncludes req.contentType "application/json" = true →
     body.len = 4 * 1024 * 1024 + 1 →
      handlePostRequest s req body uuid om = (s, .immediate requestTooLarge413, [])) ∧
    (∀ e, optIncludes req.accept "application/json" = true →
     optIncludes req.accept "text/event-stream" = true →
     optIncludes req.contentType "application/json" = true →
     body.len ≤ MAXIMUM_MESSAGE_SIZE →
     body.parsed = .error e →
      handlePostRequest s req body uuid om = (s, .immediate (parseError400 e), [])) ∧
    postNotAcceptable406.status = 406 ∧ unsupportedMediaType415.status = 415 ∧
    requestTooLarge413.status = 413 ∧ (∀ e, (parseError400 e).status = 400) ∧
    postNotAcceptable406.body =
      Body.rpcError (-32000)
        "Not Acceptable: Client must accept both application/json and text/event-stream" none ∧
    unsupportedMediaType415.body =
      Body.rpcError (-32000) "Unsupported Media Type: Content-Type must be application/json" none ∧
    requestTooLarge413.body = Body.rpcError (-32000) "Request too large" none ∧
    (∀ e, (parseError400 e).body = Body.rpcError (-32700) "Parse error" (some e)) := by
  have g3 : optIncludes req.accept "application/json" = true →
      optIncludes req.accept "text/event-stream" = true →
      optIncludes req.contentType "application/json" = true →
      MAXIMUM_MESSAGE_SIZE < body.len →
      handlePostRequest s req body uuid om = (s, .immediate requestTooLarge413, []) := by
    intro h1 h2 h3 h4
    simp [handlePostRequest, h1, h2, h3, h4]
  refine ⟨?_, ?_, g3, ?_, ?_, rfl, rfl, rfl, fun _ => rfl, rfl, rfl, rfl, fun _ => rfl⟩
  · intro h
    unfold handlePostRequest
    rw [if_pos h]
  · intro h1 h2 h3
    simp [handlePostRequest, h1, h2, h3]
  · intro h1 h2 h3 h4
    apply g3 h1 h2 h3
    unfold MAXIMUM_MESSAGE_SIZE
    omega
  · intro e h1 h2 h3 h4 h5
    have hnl : ¬ (MAXIMUM_MESSAGE_SIZE < body.len) := by omega
    simp [handlePostRequest, h1, h2, h3, hnl, h5]

theorem post_gates_in_order_witness :
    ¬ (optIncludes witnessPostNoAccept.accept "application/json" = true ∧
       optIncludes witnessPostNoAccept.accept "text/event-stream" = true) ∧
    handlePostRequest baseState witnessPostNoAccept emptyBody "u" none =
      (baseState, .immediate postNotAcceptable406, []) :=
  ⟨by decide,
   (post_gates_in_order baseState witnessPostNoAccept emptyBody "u" none).1 (by decide)⟩

/-- C10: on a gate-passing POST whose payload holds no JSON-RPC request,
a synchronous throw from the host `onmessage` during the dispatch loop is
caught by the catch-all: the response is 400 code −32700 "Parse error"
with the stringified exception as data (not 202), `onmessage` has been
invoked exactly for the preceding messages and the throwing one, and the
state is the one from before the dispatch loop. -/
theorem onmessage_throw_in_notification_post
    (s : TransportState) (req : HttpRequest) (body : RequestBody) (uuid : String)
    (f : JSONRPCMessage → Option String)
    (msgs pre rest : List JSONRPCMessage) (mbad : JSONRPCMessage) (e : String)
    (ha1 : optIncludes req.accept "application/json" = true)
    (ha2 : optIncludes req.accept "text/event-stream" = true)
    (hct : optIncludes req.contentType "application/json" = true)
    (hlen : body.len ≤ MAXIMUM_MESSAGE_SIZE)
    (hparse : body.parsed = .ok msgs)
    (hnoreq : msgs.any isJSONRPCRequest = false)
    (hval : validateSession s req = none)
    (hsplit : msgs = pre ++ mbad :: rest)
    (hpre : ∀ m ∈ pre, f m = none)
    (hbad : f mbad = some e) :
    handlePostRequest s req body uuid (some f) =
      (s, .immediate (parseError400 e), (pre ++ [mbad]).map Effect.onMessageCalled) ∧
    (parseError400 e).status = 400 ∧ parseError400 e ≠ accepted202 := by
  have hnoinit : msgs.any isInitializeRequest = false :=
    any_isInitialize_eq_false_of msgs hnoreq
  have hnl : ¬ (MAXIMUM_MESSAGE_SIZE < body.len) := by omega
  refine ⟨?_, rfl, fun hcon => ?_⟩
  · subst hsplit
    have hloop := dispatchLoop_throw f pre mbad rest e hpre hbad
    simp only [handlePostRequest, postDispatch, ha1, ha2, hct, hparse, hnoinit, hnoreq,
      hval, hloop]
    simp [hnl]
  · have hst := congrArg HttpResponse.status hcon
    simp [parseError400, rpcErrorResponse, accepted202] at hst

theorem onmessage_throw_in_notification_post_witness :
    handlePostRequest baseState goodPostRequest notifyThrowBody "u" (some throwingOnMessage) =
      (baseState, .immediate (parseError400 "Error: host failed"),
       [.onMessageCalled (.notification "a"), .onMessageCalled (.notification "bad")]) := by
  have h := onmessage_throw_in_notification_post baseState goodPostRequest notifyThrowBody
    "u" throwingOnMessage [.notification "a", .notification "bad", .notification "c"]
    [.notification "a"] [.notification "c"] (.notification "bad") "Error: host failed"
    (by decide) (by decide) (by decide) (by decide) rfl (by decide) rfl rfl
    (by decide) rfl
  simpa using h.1

theorem cleanup_post (rel : List RequestId) (sid : String) (s1 : TransportState)
    (hrel : rel = relatedIdsOf s1.requestToStreamMapping sid)
    (hidx1 : keysNodup s1.requestToStreamMapping)
    (hresp1 : keysNodup s1.requestResponseMap)
    (hstream1 : keysNodup s1.streamMapping) :
    jsGet sid (cleanupStream rel sid s1).streamMapping = none ∧
    (∀ id, jsGet id (cleanupStream rel sid s1).requestToStreamMapping ≠ some sid) ∧
    (∀ id, jsGet id s1.requestToStreamMapping = some sid →
        jsGet id (cleanupStream rel sid s1).requestResponseMap = none) ∧
    (cleanupStream rel sid s1).pendingResponses = s1.pendingResponses := by
  obtain ⟨hA, hB, hC, hD, _, _⟩ := cleanupStream_fields rel sid s1
  subst hrel
  refine ⟨?_, ?_, ?_, hD⟩
  · rw [hC]
    exact jsGet_jsDelete_self sid hstream1
  · intro id
    rw [hB, jsGet_deleteAll id _ hidx1]
    by_cases hmem : id ∈ relatedIdsOf s1.requestToStreamMapping sid
    · simp [hmem]
    · simp only [hmem, if_false]
      intro hsome
      exact hmem (mem_relatedIdsOf.mpr (mem_of_jsGet_eq_some hsome))
  · intro id hid
    rw [hA, jsGet_deleteAll id _ hresp1]
    have hmem : id ∈ relatedIdsOf s1.requestToStreamMapping sid :=
      mem_relatedIdsOf.mpr (mem_of_jsGet_eq_some hid)
    simp [hmem]

/-- C3: when `send` delivers the last missing terminal response for a
stream that has at least one correlated request, the call returns
normally and afterwards the stream's registry entry, every
request→stream index entry mapped to it, every buffered terminal
response for those request ids, and any pending JSON resolver for the
stream are all absent.  (In SSE mode the code never touches the pending
resolvers, so the hypothesis that SSE mode has no resolver registered
for the stream — true of every reachable state — is required.) -/
theorem send_completion_cleanup
    (s : TransportState) (message : JSONRPCMessage) (opts : Option RequestId)
    (rid : RequestId) (sid : String)
    (hterm : message = .response rid ∨ message = .error rid)
    (hmap : jsGet rid s.requestToStreamMapping = some sid)
    (hsid : sid ≠ "")
    (hothers : ∀ id, id ≠ rid → jsGet id s.requestToStreamMapping = some sid →
      (jsGet id s.requestResponseMap).isSome = true)
    (hidx : keysNodup s.requestToStreamMapping)
    (hresp : keysNodup s.requestResponseMap)
    (hpend : keysNodup s.pendingResponses)
    (hstream : keysNodup s.streamMapping)
    (hssePend : s.enableJsonResponse = false → jsGet sid s.pendingResponses = none) :
    ∃ s' effs, send s message opts = (s', .ok effs) ∧
      jsGet sid s'.streamMapping = none ∧
      (∀ id, jsGet id s'.requestToStreamMapping ≠ some sid) ∧
      (∀ id, jsGet id s.requestToStreamMapping = some sid →
        jsGet id s'.requestResponseMap = none) ∧
      jsGet sid s'.pendingResponses = none := by
  have hE : effectiveRequestId message opts = some rid := by
    rcases hterm with rfl | rfl <;> rfl
  have hre : isJSONRPCResponse message = true ∨ isJSONRPCError message = true := by
    rcases hterm with rfl | rfl <;> simp [isJSONRPCResponse, isJSONRPCError]
  have hnd1 : keysNodup (jsSet rid message s.requestResponseMap) :=
    keysNodup_jsSet rid message hresp
  have hready : (relatedIdsOf s.requestToStreamMapping sid).all
      (fun id => (jsGet id (jsSet rid message s.requestResponseMap)).isSome) = true := by
    rw [List.all_eq_true]
    intro id hid
    have hmem : (id, sid) ∈ s.requestToStreamMapping := mem_relatedIdsOf.mp hid
    have hgetid : jsGet id s.requestToStreamMapping = some sid :=
      jsGet_eq_some_of_mem hidx hmem
    by_cases hir : id = rid
    · subst hir
      rw [jsGet_jsSet_self]
      rfl
    · rw [jsGet_jsSet_ne message _ hir]
      exact hothers id hir hgetid
  simp only [send, hE, hmap]
  rw [if_neg hsid, if_pos hre]
  simp only [hready, if_true]
  cases henb : s.enableJsonResponse with
  | true =>
    simp only [henb, if_true]
    cases hp : jsGet sid s.pendingResponses with
    | some u =>
      simp only [hp]
      refine ⟨_, _, rfl, ?_⟩
      obtain ⟨p1, p2, p3, p4⟩ := cleanup_post _ sid
        { s with requestResponseMap := jsSet rid message s.requestResponseMap,
                 enableJsonResponse := true,
                 pendingResponses := jsDelete sid s.pendingResponses }
        rfl hidx hnd1 hstream
      exact ⟨p1, p2, fun id hid => p3 id hid, by rw [p4]; exact jsGet_jsDelete_self sid hpend⟩
    | none =>
      simp only [hp]
      refine ⟨_, _, rfl, ?_⟩
      obtain ⟨p1, p2, p3, p4⟩ := cleanup_post _ sid
        { s with requestResponseMap := jsSet rid message s.requestResponseMap,
                 enableJsonResponse := true }
        rfl hidx hnd1 hstream
      exact ⟨p1, p2, fun id hid => p3 id hid, by rw [p4]; exact hp⟩
  | false =>
    simp only [henb, if_false, Bool.false_eq_true]
    refine ⟨_, _, rfl, ?_⟩
    obtain ⟨p1, p2, p3, p4⟩ := cleanup_post _ sid
      { s with requestResponseMap := jsSet rid message s.requestResponseMap,
               enableJsonResponse := false }
      rfl hidx hnd1 hstream
    exact ⟨p1, p2, fun id hid => p3 id hid, by rw [p4]; exact hssePend henb⟩

theorem send_completion_cleanup_witness :
    jsGet "r1" c3State.requestToStreamMapping = some "s1" ∧
    (∃ s' effs, send c3State (.response "r1") none = (s', .ok effs) ∧
      jsGet "s1" s'.streamMapping = none ∧
      (∀ id, jsGet id s'.requestToStreamMapping ≠ some "s1") ∧
      (∀ id, jsGet id c3State.requestToStreamMapping = some "s1" →
        jsGet id s'.requestResponseMap = none) ∧
      jsGet "s1" s'.pendingResponses = none) := by
  refine ⟨rfl, send_completion_cleanup c3State (.response "r1") none "r1" "s1"
    (Or.inl rfl) rfl (by decide) ?_ (by decide) (by decide) (by decide) (by decide)
    (fun _ => rfl)⟩
  intro id hne hid
  have hn : jsGet id c3State.requestToStreamMapping = none := by
    simp [c3State, baseState, jsGet, Ne.symm hne]
  rw [hn] at hid
  cases hid

theorem deliver_completes (rids : List RequestId) (uuid : String)
    (resp : RequestId → JSONRPCMessage)
    (huuid : uuid ≠ "")
    (hterm : ∀ r, resp r = .response r ∨ resp r = .error r) :
    ∀ (ds : List RequestId) (s : TransportState),
      s.enableJsonResponse = true →
      relatedIdsOf s.requestToStreamMapping uuid = rids →
      keysNodup s.requestToStreamMapping →
      keysNodup s.requestResponseMap →
      jsGet uuid s.pendingResponses = some () →
      (∀ d ∈ ds, d ∈ rids) →
      ds.Nodup →
      (∀ r ∈ rids, r ∉ ds → jsGet r s.requestResponseMap = some (resp r)) →
      (∀ r ∈ ds, jsGet r s.requestResponseMap = none) →
      ds ≠ [] →
      ∃ sN effs, deliverSeq resp ds s = (sN, .ok effs) ∧
        Effect.resolvedPending uuid
          { status := 200,
            headers := match s.sessionId with
              | some v => [("Content-Type", "application/json"), ("mcp-session-id", v)]
              | none => [("Content-Type", "application/json")],
            body := jsonBodyOf (rids.map resp) } ∈ effs := by
  intro ds
  induction ds with
  | nil =>
    intro s _ _ _ _ _ _ _ _ _ hne
    exact absurd rfl hne
  | cons d rest ih =>
    intro s hjson hrel hidx hrespnd hpend hsub hndds hdone htodo _
    have hdr : d ∈ rids := hsub d (List.mem_cons_self _ _)
    have hdrel : d ∈ relatedIdsOf s.requestToStreamMapping uuid := by
      rw [hrel]; exact hdr
    have hmapd : jsGet d s.requestToStreamMapping = some uuid :=
      jsGet_eq_some_of_mem hidx (mem_relatedIdsOf.mp hdrel)
    have hE : effectiveRequestId (resp d) none = some d := by
      rcases hterm d with h | h <;> rw [h] <;> rfl
    have hre : isJSONRPCResponse (resp d) = true ∨ isJSONRPCError (resp d) = true := by
      rcases hterm d with h | h <;> rw [h] <;> simp [isJSONRPCResponse, isJSONRPCError]
    have hnd1 : keysNodup (jsSet d (resp d) s.requestResponseMap) :=
      keysNodup_jsSet _ _ hrespnd
    by_cases hrest : rest = []
    · subst hrest
      have hresps : ∀ r ∈ rids,
          jsGet r (jsSet d (resp d) s.requestResponseMap) = some (resp r) := by
        intro r hr
        by_cases hrd : r = d
        · subst hrd
          exact jsGet_jsSet_self _ _ _
        · rw [jsGet_jsSet_ne _ _ hrd]
          exact hdone r hr (by simp [hrd])
      have hready : (rids.all
          fun id => (jsGet id (jsSet d (resp d) s.requestResponseMap)).isSome) = true := by
        rw [List.all_eq_true]
        intro r hr
        rw [hresps r hr]
        rfl
      have hfm : rids.filterMap (fun id => jsGet id (jsSet d (resp d) s.requestResponseMap)) =
          rids.map resp :=
        filterMap_eq_map_of rids _ resp hresps
      simp only [deliverSeq, send, hE, hmapd]
      rw [if_neg huuid, if_pos hre]
      simp only [hrel, hready, if_true, hjson, hpend, hfm]
      refine ⟨_, _, rfl, ?_⟩
      simp
    · have hdnr : d ∉ rest := (List.nodup_cons.mp hndds).1
      obtain ⟨w, hw⟩ := List.exists_mem_of_ne_nil rest hrest
      have hwd : w ≠ d := fun he => hdnr (he ▸ hw)
      have hwr : w ∈ rids := hsub w (List.mem_cons_of_mem _ hw)
      have hwnone : jsGet w (jsSet d (resp d) s.requestResponseMap) = none := by
        rw [jsGet_jsSet_ne _ _ hwd]
        exact htodo w (List.mem_cons_of_mem _ hw)
      have hnotready : ¬ ((rids.all
          fun id => (jsGet id (jsSet d (resp d) s.requestResponseMap)).isSome) = true) := by
        rw [List.all_eq_true]
        intro hall
        have hws := hall w hwr
        rw [hwnone] at hws
        simp at hws
      obtain ⟨sN, effs2, heq, hmem⟩ := ih
        { s with requestResponseMap := jsSet d (resp d) s.requestResponseMap }
        hjson hrel hidx hnd1 hpend
        (fun x hx => hsub x (List.mem_cons_of_mem _ hx))
        (List.nodup_cons.mp hndds).2
        (by
          intro r hr hnr
          by_cases hrd : r = d
          · subst hrd
            exact jsGet_jsSet_self _ _ _
          · rw [jsGet_jsSet_ne _ _ hrd]
            refine hdone r hr ?_
            intro hc
            rcases List.mem_cons.mp hc with h | h
            · exact hrd h
            · exact hnr h)
        (by
          intro r hr
          have hrd : r ≠ d := fun he => hdnr (he ▸ hr)
          rw [jsGet_jsSet_ne _ _ hrd]
          exact htodo r (List.mem_cons_of_mem _ hr))
        hrest
      simp only [deliverSeq, send, hE, hmapd]
      rw [if_neg huuid, if_pos hre]
      simp only [hrel]
      rw [if_neg hnotready]
      simp only [heq]
      exact ⟨sN, _ ++ effs2, rfl, List.mem_append_right _ hmem⟩

theorem keysNodup_append_fresh (m : JsMap RequestId String) (l : List RequestId) (sid : String)
    (hm : keysNodup m) (hl : l.Nodup) (hfresh : ∀ r ∈ l, jsGet r m = none) :
    keysNodup (m ++ l.map fun id => (id, sid)) := by
  unfold keysNodup
  rw [List.map_append, List.map_map]
  have hcomp : (Prod.fst ∘ fun i : RequestId => (i, sid)) = fun i : RequestId => i := rfl
  rw [hcomp, List.nodup_append]
  refine ⟨hm, by simpa using hl, ?_⟩
  intro a ha hb
  have hb' : a ∈ l := by simpa using hb
  have hn := hfresh a hb'
  rw [jsGet_eq_none_iff] at hn
  rcases List.mem_map.mp ha with ⟨p, hp, hpa⟩
  exact hn p hp hpa

theorem handlePost_promise_inv (s0 : TransportState) (req : HttpRequest) (body : RequestBody)
    (uuid : String) (om : Option (JSONRPCMessage → Option String))
    (s1 : TransportState) (sid : String) (effs0 : List Effect)
    (h : handlePostRequest s0 req body uuid om = (s1, .promise sid, effs0)) :
    sid = uuid ∧ s0.enableJsonResponse = true ∧
    ∃ msgs base, body.parsed = .ok msgs ∧ msgs.any isJSONRPCRequest = true ∧
      (base = s0 ∨ base = { s0 with sessionId := s0.sessionIdGenerator, initialized := true }) ∧
      s1 = { base with
        requestToStreamMapping := insertRequests msgs uuid base.requestToStreamMapping,
        pendingResponses := jsSet uuid () base.pendingResponses } := by
  simp only [handlePostRequest, postDispatch] at h
  by_cases g1 : optIncludes req.accept "application/json" = true ∧
      optIncludes req.accept "text/event-stream" = true
  · rw [if_neg (not_not_intro g1)] at h
    by_cases g2 : optIncludes req.contentType "application/json" = true
    · rw [if_neg (not_not_intro g2)] at h
      by_cases g3 : MAXIMUM_MESSAGE_SIZE < body.len
      · rw [if_pos g3] at h
        simp at h
      · rw [if_neg g3] at h
        split at h
        · simp at h
        · rename_i messages hp
          by_cases gi : messages.any isInitializeRequest = true
          · rw [if_pos gi] at h
            by_cases ga : s0.initialized = true ∧ s0.sessionId ≠ none
            · rw [if_pos ga] at h
              simp at h
            · rw [if_neg ga] at h
              by_cases gl : 1 < messages.length
              · rw [if_pos gl] at h
                simp at h
              · rw [if_neg gl] at h
                by_cases gr : messages.any isJSONRPCRequest = true
                · rw [if_neg (not_not_intro gr)] at h
                  by_cases gj : s0.enableJsonResponse = true
                  · rw [if_neg (not_not_intro gj)] at h
                    injection h with h1 h23
                    injection h23 with h2 h3
                    injection h2 with huu
                    exact ⟨huu.symm, gj, messages, _, hp, gr, Or.inr rfl, h1.symm⟩
                  · rw [if_pos gj] at h
                    simp at h
                · rw [if_pos gr] at h
                  split at h
                  · simp at h
                  · simp at h
          · rw [if_neg gi] at h
            split at h
            · simp at h
            · by_cases gr : messages.any isJSONRPCRequest = true
              · rw [if_neg (not_not_intro gr)] at h
                by_cases gj : s0.enableJsonResponse = true
                · rw [if_neg (not_not_intro gj)] at h
                  injection h with h1 h23
                  injection h23 with h2 h3
                  injection h2 with huu
                  exact ⟨huu.symm, gj, messages, s0, hp, gr, Or.inl rfl, h1.symm⟩
                · rw [if_pos gj] at h
                  simp at h
              · rw [if_pos gr] at h
                split at h
                · simp at h
                · simp at h
    · rw [if_pos g2] at h
      simp at h
  · rw [if_pos g1] at h
    simp at h

/-- C4: a JSON-mode POST answered with a pending promise under a fresh
stream id `uuid` carrying M ≥ 1 requests resolves, once every correlated
request has received its terminal response via `send` — in any delivery
order — with a single 200 response: `Content-Type: application/json`,
`Mcp-Session-Id` exactly when a session id is set, and a body that is the
single buffered response when M = 1 and otherwise the array of the M
buffered responses in the order the request ids were inserted into the
request→stream index (payload order). -/
theorem json_mode_batch_response
    (s0 : TransportState) (req : HttpRequest) (body : RequestBody) (uuid : String)
    (om : Option (JSONRPCMessage → Option String)) (msgs : List JSONRPCMessage)
    (s1 : TransportState) (effs0 : List Effect)
    (resp : RequestId → JSONRPCMessage) (ds : List RequestId)
    (hpost : handlePostRequest s0 req body uuid om = (s1, .promise uuid, effs0))
    (hparse : body.parsed = .ok msgs)
    (huuid : uuid ≠ "")
    (hfreshIdx : ∀ r ∈ requestIds msgs, jsGet r s0.requestToStreamMapping = none)
    (hfreshResp : ∀ r ∈ requestIds msgs, jsGet r s0.requestResponseMap = none)
    (hnodupIds : (requestIds msgs).Nodup)
    (huuidFresh : ∀ p ∈ s0.requestToStreamMapping, p.2 ≠ uuid)
    (hidx : keysNodup s0.requestToStreamMapping)
    (hrespnd : keysNodup s0.requestResponseMap)
    (hterm : ∀ r, resp r = .response r ∨ resp r = .error r)
    (hds : ds.Nodup)
    (hdsperm : ∀ r, r ∈ ds ↔ r ∈ requestIds msgs)
    (hM : requestIds msgs ≠ []) :
    ∃ sN effs, deliverSeq resp ds s1 = (sN, .ok effs) ∧
      Effect.resolvedPending uuid
        { status := 200,
          headers := match s1.sessionId with
            | some v => [("Content-Type", "application/json"), ("mcp-session-id", v)]
            | none => [("Content-Type", "application/json")],
          body := jsonBodyOf ((requestIds msgs).map resp) } ∈ effs := by
  obtain ⟨-, hjson0, msgs', base, hp', hreq', hbase, hs1⟩ :=
    handlePost_promise_inv s0 req body uuid om s1 uuid effs0 hpost
  rw [hparse] at hp'
  injection hp' with he
  subst he
  have hbaseIdx : base.requestToStreamMapping = s0.requestToStreamMapping := by
    rcases hbase with rfl | rfl <;> rfl
  have hbaseResp : base.requestResponseMap = s0.requestResponseMap := by
    rcases hbase with rfl | rfl <;> rfl
  have hbaseJson : base.enableJsonResponse = true := by
    rcases hbase with rfl | rfl <;> exact hjson0
  subst hs1
  have hins : insertRequests msgs uuid base.requestToStreamMapping =
      s0.requestToStreamMapping ++ (requestIds msgs).map (fun id => (id, uuid)) := by
    rw [hbaseIdx]
    exact insertRequests_eq_append msgs uuid _ hfreshIdx hnodupIds
  have hrel1 : relatedIdsOf (insertRequests msgs uuid base.requestToStreamMapping) uuid =
      requestIds msgs := by
    rw [hins]
    exact relatedIdsOf_append_fresh _ _ _ huuidFresh
  have hidx1 : keysNodup (insertRequests msgs uuid base.requestToStreamMapping) := by
    rw [hins]
    exact keysNodup_append_fresh _ _ _ hidx hnodupIds hfreshIdx
  have hrespnd1 : keysNodup base.requestResponseMap := by
    rw [hbaseResp]
    exact hrespnd
  have hdone1 : ∀ r ∈ requestIds msgs, r ∉ ds →
      jsGet r base.requestResponseMap = some (resp r) := by
    intro r hr hnot
    exact absurd ((hdsperm r).mpr hr) hnot
  have htodo1 : ∀ r ∈ ds, jsGet r base.requestResponseMap = none := by
    intro r hr
    rw [hbaseResp]
    exact hfreshResp r ((hdsperm r).mp hr)
  have hne : ds ≠ [] := by
    intro hnil
    rcases List.exists_mem_of_ne_nil _ hM with ⟨r, hr⟩
    have hmem := (hdsperm r).mpr hr
    rw [hnil] at hmem
    simp at hmem
  exact deliver_completes (requestIds msgs) uuid resp huuid hterm ds
    { base with requestToStreamMapping := insertRequests msgs uuid base.requestToStreamMapping,
                pendingResponses := jsSet uuid () base.pendingResponses }
    hbaseJson hrel1 hidx1 hrespnd1 (jsGet_jsSet_self _ _ _)
    (fun d hd => (hdsperm d).mp hd) hds hdone1 htodo1 hne

theorem json_mode_batch_response_witness :
    ∃ sN effs, deliverSeq c4Resp ["b", "a"] c4Post1 = (sN, .ok effs) ∧
      Effect.resolvedPending "u-1"
        { status := 200, headers := [("Content-Type", "application/json")],
          body := jsonBodyOf [JSONRPCMessage.response "a", JSONRPCMessage.response "b"] }
        ∈ effs := by
  have h := json_mode_batch_response c4State goodPostRequest c4Body "u-1" none c4Msgs
    c4Post1 [.deferredDispatch c4Msgs] c4Resp ["b", "a"]
    rfl rfl (by decide) (by decide) (by decide) (by decide) (by decide) (by decide)
    (by decide) (fun r => Or.inl rfl) (by decide)
    (by intro r; simp [c4Msgs, requestIds]; tauto) (by decide)
  simpa [c4Msgs, c4Post1, baseState, requestIds, c4Resp] using h

theorem validateSession_some_cases (s : TransportState) (req : HttpRequest) (r : HttpResponse)
    (h : validateSession s req = some r) :
    r = serverNotInitialized400 ∨ r = sessionIdRequired400 ∨ r = sessionNotFound404 := by
  unfold validateSession at h
  repeat' split at h
  all_goals
    first
    | (injection h with hr
       subst hr
       simp
       done)
    | injection h

theorem post_immediate_cases (s : TransportState) (req : HttpRequest) (body : RequestBody)
    (uuid : String) (om : Option (JSONRPCMessage → Option String))
    (s' : TransportState) (r : HttpResponse) (effs : List Effect)
    (h : handlePostRequest s req body uuid om = (s', .immediate r, effs)) :
    r = postNotAcceptable406 ∨ r = unsupportedMediaType415 ∨ r = requestTooLarge413 ∨
    (∃ e, r = parseError400 e) ∨ r = alreadyInitialized400 ∨ r = onlyOneInitialization400 ∨
    r = serverNotInitialized400 ∨ r = sessionIdRequired400 ∨ r = sessionNotFound404 ∨
    r = accepted202 ∨ r.status = 200 := by
  simp only [handlePostRequest, postDispatch] at h
  repeat' split at h
  all_goals simp only [Prod.mk.injEq] at h
  all_goals obtain ⟨-, h2, -⟩ := h
  all_goals
    first
    | (injection h2 with hr
       subst hr
       simp [parseError400, rpcErrorResponse]
       done)
    | (injection h2 with hr
       subst hr
       rename_i heqv
       rcases validateSession_some_cases _ _ _ heqv with h1 | h1 | h1 <;>
         (simp [h1]; done))
    | injection h2

theorem get_immediate_cases (s : TransportState) (req : HttpRequest)
    (s' : TransportState) (r : HttpResponse) (effs : List Effect)
    (h : handleGetRequest s req = (s', .immediate r, effs)) :
    r = getNotAcceptable406 ∨ r = serverNotInitialized400 ∨ r = sessionIdRequired400 ∨
    r = sessionNotFound404 ∨ r = conflict409 ∨ r = internalServerError500 ∨
    r.status = 200 := by
  simp only [handleGetRequest, replayEvents, standaloneGet] at h
  repeat' split at h
  all_goals simp only [Prod.mk.injEq] at h
  all_goals obtain ⟨-, h2, -⟩ := h
  all_goals
    first
    | (injection h2 with hr
       subst hr
       simp
       done)
    | (injection h2 with hr
       subst hr
       rename_i heqv
       rcases validateSession_some_cases _ _ _ heqv with h1 | h1 | h1 <;>
         (simp [h1]; done))
    | injection h2

theorem delete_immediate_cases (s : TransportState) (req : HttpRequest)
    (s' : TransportState) (r : HttpResponse) (effs : List Effect)
    (h : handleDeleteRequest s req = (s', .immediate r, effs)) :
    r = serverNotInitialized400 ∨ r = sessionIdRequired400 ∨ r = sessionNotFound404 ∨
    r = okEmpty200 := by
  simp only [handleDeleteRequest, close] at h
  repeat' split at h
  all_goals simp only [Prod.mk.injEq] at h
  all_goals obtain ⟨-, h2, -⟩ := h
  all_goals
    first
    | (injection h2 with hr
       subst hr
       simp
       done)
    | (injection h2 with hr
       subst hr
       rename_i heqv
       rcases validateSession_some_cases _ _ _ heqv with h1 | h1 | h1 <;>
         (simp [h1]; done))
    | injection h2

/-- C8 (counterexample): with an event store whose replay throws, a GET
carrying `Last-Event-Id` is answered with status 500 and the plain-text
body `"Internal Server Error"` — an error response of `handleRequest`
that is not a JSON-RPC error envelope, refuting the claim. -/
theorem replay_error_counterexample :
    ∃ s' effs, handleRequest c8State c8Request emptyBody "u" none =
      (s', .immediate internalServerError500, effs) ∧
    internalServerError500.status = 500 ∧ ¬ errorEnvelopeOk internalServerError500 := by
  refine ⟨_, _, rfl, rfl, ?_⟩
  rintro ⟨c, m, d, hbody, -⟩
  simp [internalServerError500] at hbody

/-- C8 (amended): every error (non-2xx) HTTP response produced
immediately by `handleRequest`, on any method and failure path, carries
the JSON-RPC error-envelope body with one of the codes −32000, −32001,
−32600, −32700 — except the event-store replay failure, which yields a
500 whose body is the plain text `"Internal Server Error"`. -/
theorem error_responses_enveloped (s : TransportState) (req : HttpRequest)
    (body : RequestBody) (uuid : String) (om : Option (JSONRPCMessage → Option String))
    (s' : TransportState) (r : HttpResponse) (effs : List Effect)
    (h : handleRequest s req body uuid om = (s', .immediate r, effs))
    (herr : r.status < 200 ∨ 300 ≤ r.status) :
    errorEnvelopeOk r ∨ (r.status = 500 ∧ r.body = Body.text "Internal Server Error") := by
  unfold handleRequest at h
  split_ifs at h
  · rcases post_immediate_cases s req body uuid om s' r effs h with
      hr | hr | hr | ⟨e, hr⟩ | hr | hr | hr | hr | hr | hr | hr
    · subst hr
      exact Or.inl ⟨-32000, _, _, rfl, Or.inl rfl⟩
    · subst hr
      exact Or.inl ⟨-32000, _, _, rfl, Or.inl rfl⟩
    · subst hr
      exact Or.inl ⟨-32000, _, _, rfl, Or.inl rfl⟩
    · subst hr
      exact Or.inl ⟨-32700, _, _, rfl, Or.inr (Or.inr (Or.inr rfl))⟩
    · subst hr
      exact Or.inl ⟨-32600, _, _, rfl, Or.inr (Or.inr (Or.inl rfl))⟩
    · subst hr
      exact Or.inl ⟨-32600, _, _, rfl, Or.inr (Or.inr (Or.inl rfl))⟩
    · subst hr
      exact Or.inl ⟨-32000, _, _, rfl, Or.inl rfl⟩
    · subst hr
      exact Or.inl ⟨-32000, _, _, rfl, Or.inl rfl⟩
    · subst hr
      exact Or.inl ⟨-32001, _, _, rfl, Or.inr (Or.inl rfl)⟩
    · subst hr
      exact absurd herr (by decide)
    · rw [hr] at herr
      exact absurd herr (by decide)
  · rcases get_immediate_cases s req s' r effs h with
      hr | hr | hr | hr | hr | hr | hr
    · subst hr
      exact Or.inl ⟨-32000, _, _, rfl, Or.inl rfl⟩
    · subst hr
      exact Or.inl ⟨-32000, _, _, rfl, Or.inl rfl⟩
    · subst hr
      exact Or.inl ⟨-32000, _, _, rfl, Or.inl rfl⟩
    · subst hr
      exact Or.inl ⟨-32001, _, _, rfl, Or.inr (Or.inl rfl)⟩
    · subst hr
      exact Or.inl ⟨-32000, _, _, rfl, Or.inl rfl⟩
    · subst hr
      exact Or.inr ⟨rfl, rfl⟩
    · rw [hr] at herr
      exact absurd herr (by decide)
  · rcases delete_immediate_cases s req s' r effs h with hr | hr | hr | hr
    · subst hr
      exact Or.inl ⟨-32000, _, _, rfl, Or.inl rfl⟩
    · subst hr
      exact Or.inl ⟨-32000, _, _, rfl, Or.inl rfl⟩
    · subst hr
      exact Or.inl ⟨-32001, _, _, rfl, Or.inr (Or.inl rfl)⟩
    · subst hr
      exact absurd herr (by decide)
  · simp only [Prod.mk.injEq] at h
    obtain ⟨-, h2, -⟩ := h
    injection h2 with hr
    subst hr
    exact Or.inl ⟨-32000, _, _, rfl, Or.inl rfl⟩

theorem error_responses_enveloped_witness :
    errorEnvelopeOk methodNotAllowed405 ∨
      (methodNotAllowed405.status = 500 ∧
       methodNotAllowed405.body = Body.text "Internal Server Error") :=
  error_responses_enveloped baseState putRequest emptyBody "u" none
    baseState methodNotAllowed405 [] rfl (by decide)

end StreamHttpEdge
